import Mathlib

/-!
Verification development for the BlankLogo watermark-removal worker
(`apps/worker/python`): a shallow embedding of the detection gap-filler
(`detector._fill_missed_detections` / `detect_video`), the mask builder and
stride padding (`inpainter.create_mask`, `inpainter._pad_to_mod`,
`inpainter.inpaint_frame`), the inpaint dispatcher (`inpainter.inpaint_video`,
`inpainter.get_lama_model`), and the orchestrator (`processor.process_crop`,
`processor.save_video_frames`, `processor.process_inpaint`,
`processor.JobStatus.update`), together with theorems about them.

External capabilities (YOLO inference, the LAMA torch model, OpenCV, the
ffmpeg binary) are treated as abstract parameters or, where a claim depends
on them, modelled from their documented behaviour with an explicit comment.
Machine integers are modelled as `Int`/`Nat`: the Python code uses unbounded
Python ints throughout.
-/

namespace BlankLogo

/-- Bounding box `(x1, y1, x2, y2)` of a detection, Python ints. -/
structure Bbox where
  x1 : Int
  y1 : Int
  x2 : Int
  y2 : Int
deriving DecidableEq, Repr

/-- Per-frame detection record, the dict built by `detector.detect_frame` and
rewritten by `_fill_missed_detections`.  The `confidence` and `center` entries
are floats never read by the pipeline after detection and are omitted.
`bbox` is `none` exactly when the Python dict holds `None`; a present bbox is
a nonempty tuple, hence truthy in Python regardless of its values. -/
structure Detection where
  detected : Bool
  bbox : Option Bbox
  interpolated : Bool
deriving DecidableEq, Repr

/-- Default detection record (used only to totalise list indexing; every
index the claims touch is in range). -/
def dfltDet : Detection := { detected := false, bbox := none, interpolated := false }

/-- The detection stored at index `j` (`results[j]` in Python). -/
def detAt (R : List Detection) (j : Nat) : Detection := (R[j]?).getD dfltDet

/-- Backward scan of `_fill_missed_detections`: starting at `idx - 1` and
walking down to 0, stop at the first entry with `detected` true and return
its bbox (`before_bbox` stays `None` when the loop never breaks, and also
when the entry it breaks on carries a `None` bbox — both are falsy at the
`if before_bbox:` test, which this `Option` collapse reflects exactly). -/
def lookBack (R : List Detection) : Nat → Option Bbox
  | 0 => none
  | j + 1 =>
    match R[j]? with
    | some d => if d.detected then d.bbox else lookBack R j
    | none => lookBack R j

/-- Forward scan of `_fill_missed_detections`: starting at index `j` and
walking up to the end of the list, stop at the first entry with `detected`
true and return its bbox. -/
def lookForward (R : List Detection) (j : Nat) : Option Bbox :=
  match (R.drop j).find? (fun d => d.detected) with
  | some d => d.bbox
  | none => none

/-- One iteration of the loop body of `_fill_missed_detections` at a missed
index `idx`: compute `before_bbox` and `after_bbox` over the current
(partially rewritten) list, then prefer the backward bbox, else the forward
one, else leave the entry alone. -/
def fillStep (R : List Detection) (idx : Nat) : List Detection :=
  let beforeBbox := lookBack R idx
  let afterBbox := lookForward R (idx + 1)
  match R[idx]? with
  | none => R
  | some d =>
    match beforeBbox with
    | some b => R.set idx { d with detected := true, bbox := some b, interpolated := true }
    | none =>
      match afterBbox with
      | some b => R.set idx { d with detected := true, bbox := some b, interpolated := true }
      | none => R

/-- `_fill_missed_detections(results, missed_indices)`: the `for idx in
missed_indices` loop, mutating the list in place. -/
def fillMissed (R : List Detection) (missed : List Nat) : List Detection :=
  missed.foldl fillStep R

/-- The `missed_indices` list built by `detect_video`'s first pass: the frame
indices whose detection came back not-detected, in increasing order. -/
def missedIndices (R : List Detection) : List Nat :=
  (List.range R.length).filter (fun i => !(detAt R i).detected)

/-- The second pass of `detect_video`, applied to the per-frame results of the
first pass (the YOLO inference itself is the abstract producer of `R`):
`if missed_indices: results = self._fill_missed_detections(...)`. -/
def detectVideo (R : List Detection) : List Detection :=
  let missed := missedIndices R
  if missed.isEmpty then R else fillMissed R missed

/-- Index of the nearest directly-detected frame strictly before `idx` in the
original result list (the frame the backward scan is specified to land on). -/
def nearestBefore (R : List Detection) : Nat → Option Nat
  | 0 => none
  | j + 1 =>
    match R[j]? with
    | some d => if d.detected then some j else nearestBefore R j
    | none => nearestBefore R j

/-! ### Crop mode (`processor.process_crop`) -/

/-- Errors surfacing from crop-mode processing.  `ffmpegFailure` is the
`ffmpeg.Error` raised by the ffmpeg-python `run` wrapper on a nonzero exit of
the external binary; `invalidModeOptions` is the `InvalidModeOptionsError`
kind named by the spec, carried here only so that statements about it can be
written — no code under `apps/worker/python` defines or raises it. -/
inductive CropError where
  | ffmpegFailure
  | invalidModeOptions
deriving DecidableEq, Repr

/-- The crop video filter `crop=outW:outH:x:y` assembled by `process_crop`. -/
structure CropFilter where
  outW : Int
  outH : Int
  x : Int
  y : Int
deriving DecidableEq, Repr

/-- The `crop_filter` string construction of `process_crop` (lines 232-241):
named edges build the four rectangles; any other `crop_position` string falls
into the final `else` and silently gets the bottom-crop rectangle. -/
def buildCropFilter (width height cropPixels : Int) (cropPosition : String) : CropFilter :=
  if cropPosition = "bottom" then { outW := width, outH := height - cropPixels, x := 0, y := 0 }
  else if cropPosition = "top" then
    { outW := width, outH := height - cropPixels, x := 0, y := cropPixels }
  else if cropPosition = "left" then
    { outW := width - cropPixels, outH := height, x := cropPixels, y := 0 }
  else if cropPosition = "right" then
    { outW := width - cropPixels, outH := height, x := 0, y := 0 }
  else { outW := width, outH := height - cropPixels, x := 0, y := 0 }

/-- Modelled from the spec: the external ffmpeg binary is not part of this
repository; its crop filter rejects a rectangle that is empty, negative, or
not contained in the probed input, making the wrapper raise `ffmpeg.Error`
(nonzero exit), and otherwise emits the cropped stream. -/
def runCropFfmpeg (width height : Int) (f : CropFilter) : Except CropError (Int × Int) :=
  if 0 < f.outW ∧ 0 < f.outH ∧ 0 ≤ f.x ∧ 0 ≤ f.y ∧ f.outW + f.x ≤ width ∧ f.outH + f.y ≤ height
  then Except.ok (f.outW, f.outH)
  else Except.error CropError.ffmpegFailure

/-- The result dict returned by `process_crop` (lines 254-263), with the
probed dimensions and the reported `output_size` pair. -/
structure CropResult where
  cropPixels : Int
  cropPosition : String
  originalW : Int
  originalH : Int
  outputW : Int
  outputH : Int
deriving DecidableEq, Repr

/-- `process_crop` after probing `(width, height)`: build the filter, run the
ffmpeg pass (its failure propagates — there is no validation of
`crop_pixels` against the probed dimensions anywhere in the function), then
return the result dict whose `output_size` is reduced only for the four
recognised position strings. -/
def processCrop (width height cropPixels : Int) (cropPosition : String) :
    Except CropError (CropFilter × CropResult) :=
  let f := buildCropFilter width height cropPixels cropPosition
  match runCropFfmpeg width height f with
  | Except.error e => Except.error e
  | Except.ok _ =>
    Except.ok (f,
      { cropPixels := cropPixels
        cropPosition := cropPosition
        originalW := width
        originalH := height
        outputW := if cropPosition = "left" ∨ cropPosition = "right"
                   then width - cropPixels else width
        outputH := if cropPosition = "top" ∨ cropPosition = "bottom"
                   then height - cropPixels else height })

/-! ### Encoding with audio mux (`processor.save_video_frames`) -/

/-- The exception `save_video_frames` raises before any encoding work:
`ValueError` on an empty frame list. -/
inductive SaveError where
  | noFrames
deriving DecidableEq, Repr

/-- Which file ends up at `output_path`: the audio-muxed encode, or the
silent raw encode renamed into place by the `except` handler. -/
inductive FinalVideo where
  | muxedOutput
  | silentRenamed
deriving DecidableEq, Repr

/-- Outcome of `save_video_frames`: the file at `output_path` and whether the
`Could not merge audio` warning was logged. -/
structure SaveOutcome where
  final : FinalVideo
  audioWarning : Bool
deriving DecidableEq, Repr

/-- `save_video_frames` (lines 160-211).  The raw x264 encode of the frames
is abstracted as succeeding (the claims do not exercise its failure);
`muxOk` abstracts whether the audio-mux ffmpeg invocation inside the `try`
succeeds — it is false e.g. when the input has no audio track.  On mux
failure the handler logs a warning and renames the silent temp encode to the
output path; nothing is raised. -/
def saveVideoFrames (frameCount : Nat) (muxOk : Bool) : Except SaveError SaveOutcome :=
  if frameCount = 0 then Except.error SaveError.noFrames
  else if muxOk then Except.ok { final := FinalVideo.muxedOutput, audioWarning := false }
  else Except.ok { final := FinalVideo.silentRenamed, audioWarning := true }

/-! ### Job status tracking (`processor.JobStatus`, `process_inpaint`) -/

/-- The mutable state `JobStatus.update` touches: `current_stage` and
`progress`. -/
structure JobStatusRec where
  currentStage : String
  progress : Nat
deriving DecidableEq, Repr

/-- `JobStatus.update` (lines 60-67): `if stage:` replaces the stage (Python
truthiness: a `None` or empty stage string leaves it alone), `if progress is
not None:` replaces the progress; the message argument only logs. -/
def updateStatus (s : JobStatusRec) (stage : Option String) (progress : Option Nat) :
    JobStatusRec :=
  { currentStage :=
      match stage with
      | some st => if st = "" then s.currentStage else st
      | none => s.currentStage
    progress :=
      match progress with
      | some p => p
      | none => s.progress }

/-- The `(stage, progress)` arguments of the `self.status.update(...)` calls
of `process_inpaint` (lines 265-338) in source order, for a run in which
`detected_count > 0` is decided by `detectedSome`: init 0, loading 5, the
message-only update after loading, detecting 15, the detected-count update
at 40, then either (inpainting, 45) or the progress-less skipped update,
then encoding 85 and complete 100. -/
def inpaintUpdateCallsFull (detectedSome : Bool) : List (Option String × Option Nat) :=
  [(some "init", some 0), (some "loading", some 5), (none, none),
   (some "detecting", some 15), (none, some 40)] ++
  (if detectedSome then [(some "inpainting", some 45)] else [(some "skipped", none)]) ++
  [(some "encoding", some 85), (some "complete", some 100)]

/-- The update calls that actually execute in a `process_inpaint` run: the
call `self.detector.detect_video(frames, progress_callback=...)` at line 290
passes a keyword that `detector.detect_video(self, frames)` does not accept,
so the run raises `TypeError` immediately after the (detecting, 15) update
and none of the later updates run. -/
def inpaintUpdateCallsExecuted : List (Option String × Option Nat) :=
  [(some "init", some 0), (some "loading", some 5), (none, none),
   (some "detecting", some 15)]

/-- The sequence of values assigned to `Job.progress` by a list of update
calls: exactly the non-`None` progress arguments, in call order. -/
def assignedProgress (calls : List (Option String × Option Nat)) : List Nat :=
  calls.filterMap (fun c => c.2)

/-- The successive `JobStatusRec` states produced by running a list of
update calls from an initial state. -/
def statusTrace (calls : List (Option String × Option Nat)) (s0 : JobStatusRec) :
    List JobStatusRec :=
  calls.scanl (fun s c => updateStatus s c.1 c.2) s0

/-! ### Stride padding (`inpainter._pad_to_mod`, `inpainter.inpaint_frame`) -/

/-- A 2-dimensional raster of pixels of some value type, as a size plus an
indexing function (`px y x` is row `y`, column `x`; values outside the
declared size are irrelevant to every statement below). -/
structure Grid (α : Type) where
  h : Nat
  w : Nat
  px : Nat → Nat → α

/-- The source row (or column) that `np.pad(..., mode='reflect')` copies into
position `i` of an axis of original length `n`: positions below `n` are the
original data; beyond it the data reflects about the last sample without
repeating it, bouncing every `2*(n-1)` positions. -/
def reflectIndex (n i : Nat) : Nat :=
  if n ≤ 1 then 0
  else
    let m := 2 * (n - 1)
    let r := i % m
    if r < n then r else m - r

/-- `_pad_to_mod(img, mod)` (lines 147-156): compute `pad_h = (mod - h % mod)
% mod` and `pad_w` likewise, reflect-pad on the bottom/right edges when
either is positive, and return the padded raster together with the original
`(h, w)`.  Both the image and the mask of `inpaint_frame` go through this
same function — the mask is reflect-padded exactly like the image. -/
def padToMod {α : Type} (g : Grid α) (mod : Nat) : Grid α × Nat × Nat :=
  let padH := (mod - g.h % mod) % mod
  let padW := (mod - g.w % mod) % mod
  if 0 < padH ∨ 0 < padW then
    ({ h := g.h + padH, w := g.w + padW,
       px := fun y x => g.px (reflectIndex g.h y) (reflectIndex g.w x) }, g.h, g.w)
  else (g, g.h, g.w)

/-- `result_np[:h, :w, :]`: crop a raster back to the given size. -/
def cropTo {α : Type} (g : Grid α) (h w : Nat) : Grid α :=
  { h := h, w := w, px := g.px }

/-- The padding/inference/cropping skeleton of `inpaint_frame`
(lines 186-207) on the model path: pad the (normalised) image and the mask
to a multiple of 8 with `_pad_to_mod`, run the LAMA jit model — abstracted
as `lamaRun` — on the padded pair, and crop the result back to the original
shape recorded for the image.  The BGR/RGB conversion, `[0,1]`
normalisation, tensor shuffling and final uint8 clipping act pointwise on
values and do not move pixels, so they are absorbed into the value type. -/
def inpaintFrameShape {α : Type} (lamaRun : Grid α → Grid α → Grid α)
    (frame mask : Grid α) : Grid α :=
  let ip := padToMod frame 8
  let mp := padToMod mask 8
  let res := lamaRun ip.1 mp.1
  cropTo res ip.2.1 ip.2.2

/-! ### Mask construction (`inpainter.create_mask`) -/

/-- The stop bound that numpy basic slicing gives `arr[a:b]` along an axis of
length `n`: a non-negative `b` is clipped to `n`; a negative `b` counts from
the end (`n + b`, floored at 0).  `create_mask` only ever produces a
non-negative start, but its `x2`/`y2` are clamped from above only and can
still be negative. -/
def npSliceEnd (n : Nat) (b : Int) : Int :=
  if 0 ≤ b then min b (n : Int) else max 0 ((n : Int) + b)

/-- `create_mask(frame_shape, bbox, padding)` (lines 107-135): an `h × w`
uint8 raster, zero everywhere except the rows `max(0, y1-padding) ≤ y` up to
the numpy slice end for `min(h, y2+padding)` and likewise for columns. -/
def createMask (frameH frameW : Nat) (bbox : Bbox) (padding : Int) : Grid Nat :=
  let x1 := max 0 (bbox.x1 - padding)
  let y1 := max 0 (bbox.y1 - padding)
  let x2 := min (frameW : Int) (bbox.x2 + padding)
  let y2 := min (frameH : Int) (bbox.y2 + padding)
  { h := frameH, w := frameW,
    px := fun y x =>
      if y < frameH ∧ x < frameW ∧
         y1 ≤ (y : Int) ∧ (y : Int) < npSliceEnd frameH y2 ∧
         x1 ≤ (x : Int) ∧ (x : Int) < npSliceEnd frameW x2
      then 255 else 0 }

/-- Number of in-region (value 255) pixels of a mask raster. -/
def maskArea (m : Grid Nat) : Nat :=
  (((Finset.range m.h) ×ˢ (Finset.range m.w)).filter
    (fun yx => m.px yx.1 yx.2 = 255)).card

/-- The region the spec describes: the bbox expanded by `padding` and clamped
to `[0,W) × [0,H)`. -/
def inClampedRegion (frameH frameW : Nat) (bbox : Bbox) (padding : Int) (y x : Nat) : Prop :=
  max 0 (bbox.y1 - padding) ≤ (y : Int) ∧ (y : Int) < min (frameH : Int) (bbox.y2 + padding) ∧
  max 0 (bbox.x1 - padding) ≤ (x : Int) ∧ (x : Int) < min (frameW : Int) (bbox.x2 + padding)

instance inClampedRegionDec (frameH frameW : Nat) (bbox : Bbox) (padding : Int) (y x : Nat) :
    Decidable (inClampedRegion frameH frameW bbox padding y x) := by
  unfold inClampedRegion
  infer_instance

/-- Area of the padded, clamped bbox of the spec (zero when the clamped
rectangle is empty or inverted). -/
def clampedBboxArea (frameH frameW : Nat) (bbox : Bbox) (padding : Int) : Nat :=
  (min (frameH : Int) (bbox.y2 + padding) - max 0 (bbox.y1 - padding)).toNat *
  (min (frameW : Int) (bbox.x2 + padding) - max 0 (bbox.x1 - padding)).toNat

/-! ### Inpaint dispatcher (`inpainter.get_lama_model`, `WatermarkInpainter`,
`inpaint_video`) -/

/-- The process-wide `_lama_model` dict: either the loaded big-lama handle or
the `{"fallback": True}` marker cached after a failed load. -/
inductive ModelHandle where
  | lama
  | fallbackOnly
deriving DecidableEq, Repr

/-- Observable actions of the inpainting stack, used to state where model
loading and the two inpainting paths can happen. -/
inductive InpaintEvent where
  | modelLoadAttempt
  | lamaUsed
  | fallbackUsed
deriving DecidableEq, Repr

/-- `get_lama_model` (lines 70-97) with its module-global cache: when the
cache is empty one load is attempted — `loadResult` abstracts the download /
`torch.jit.load` sequence — and on any exception the warning path caches the
fallback marker instead of raising; a populated cache is returned as-is with
no load attempt. -/
def getLamaModel (cache : Option ModelHandle) (loadResult : Except Unit Unit) :
    ModelHandle × Option ModelHandle × List InpaintEvent :=
  match cache with
  | some m => (m, some m, [])
  | none =>
    match loadResult with
    | Except.ok _ => (ModelHandle.lama, some ModelHandle.lama, [InpaintEvent.modelLoadAttempt])
    | Except.error _ =>
      (ModelHandle.fallbackOnly, some ModelHandle.fallbackOnly, [InpaintEvent.modelLoadAttempt])

/-- The fields of `WatermarkInpainter` set by `__init__`: the model dict and
`use_fallback = self.model.get("fallback", False)`. -/
structure Inpainter where
  model : ModelHandle
  useFallback : Bool
deriving DecidableEq, Repr

/-- `WatermarkInpainter.__init__` (lines 103-105): call `get_lama_model`
once and record whether the fallback marker came back.  Construction is
total — a failed load yields an inpainter, not an exception. -/
def mkInpainter (cache : Option ModelHandle) (loadResult : Except Unit Unit) :
    Inpainter × Option ModelHandle × List InpaintEvent :=
  let g := getLamaModel cache loadResult
  ({ model := g.1,
     useFallback := match g.1 with
       | ModelHandle.fallbackOnly => true
       | ModelHandle.lama => false },
   g.2.1, g.2.2)

/-- One loop iteration of `inpaint_video` (lines 265-274) on a
`(frame, detection)` pair: when `detection["detected"] and detection["bbox"]`
is truthy, build the mask from the bbox and inpaint — `fallbackF`/`lamaF`
abstract the `create_mask`-plus-`_fallback_inpaint` and
`create_mask`-plus-LAMA composites, selected by the `use_fallback` test at
the top of `inpaint_frame` (line 173) — otherwise keep the original frame.
The bbox reaching the inpainting composites is a plain `Bbox`: a `None`
bbox never crosses this point.  No model load happens here: `inpaint_frame`
only reads `self.use_fallback` fixed at construction. -/
def frameDispatch {α : Type} (fallbackF lamaF : α → Bbox → α) (ip : Inpainter)
    (p : α × Detection) : α × List InpaintEvent :=
  if p.2.detected = true then
    match p.2.bbox with
    | some b =>
      if ip.useFallback then (fallbackF p.1 b, [InpaintEvent.fallbackUsed])
      else (lamaF p.1 b, [InpaintEvent.lamaUsed])
    | none => (p.1, [])
  else (p.1, [])

/-- `inpaint_video` (lines 246-276): zip frames with detections and process
each pair, collecting the per-frame events. -/
def inpaintVideoRun {α : Type} (fallbackF lamaF : α → Bbox → α) (ip : Inpainter)
    (frames : List α) (dets : List Detection) : List α × List InpaintEvent :=
  let ps := (frames.zip dets).map (frameDispatch fallbackF lamaF ip)
  (ps.map Prod.fst, (ps.map Prod.snd).flatten)

/-! ### Proof-side reformulation of the gap-filling loop -/

/-- The gap-filling fold restated as a sweep over positions `b, b+1, ...` of
the original list `R0`: positions `detect_video` recorded as missed get a
`fillStep` on the evolving state `R`, detected positions are skipped.  This
is the same computation as `fillMissed R (missedIndices R0)` restricted to
missed indices at or beyond `b` (proved below), in a shape convenient for
induction. -/
def fillFrom (R0 R : List Detection) (b : Nat) : List Detection :=
  if h : b < R0.length then
    if (detAt R0 b).detected then fillFrom R0 R (b + 1)
    else fillFrom R0 (fillStep R b) (b + 1)
  else R
termination_by R0.length - b

/-- Invariant of the gap-filling sweep after the missed indices below `b`
have been processed: lengths agree, directly-detected entries and still
unprocessed missed entries are untouched, and every processed missed entry
that has a directly-detected frame somewhere before it carries that nearest
earlier frame's bbox and is now marked detected. -/
def FillInv (R0 R : List Detection) (b : Nat) : Prop :=
  R.length = R0.length ∧
  (∀ j, (detAt R0 j).detected = true → detAt R j = detAt R0 j) ∧
  (∀ j, b ≤ j → (detAt R0 j).detected = false → detAt R j = detAt R0 j) ∧
  (∀ j d, j < b → (detAt R0 j).detected = false → nearestBefore R0 j = some d →
    (detAt R j).detected = true ∧ (detAt R j).bbox = (detAt R0 d).bbox)

/-! ### Concrete inputs used by witnesses and counterexamples -/

/-- A directly-detected record with a bbox that identifies its frame. -/
def exDet (i : Nat) : Detection :=
  { detected := true,
    bbox := some { x1 := (i : Int), y1 := 0, x2 := (i : Int) + 1, y2 := 1 },
    interpolated := false }

/-- Scenario A detection list: 10 frames, direct detections on frames
0, 1, 2 and 7, 8, 9, misses on 3-6. -/
def ex10 : List Detection :=
  [exDet 0, exDet 1, exDet 2, dfltDet, dfltDet, dfltDet, dfltDet, exDet 7, exDet 8, exDet 9]

/-- A 7 x 8 single-channel mask raster whose only in-region pixel sits at
row 5, column 0 (rows pad to 8, so one bottom row of padding is added). -/
def c2mask : Grid Int :=
  { h := 7, w := 8, px := fun y x => if y = 5 ∧ x = 0 then 255 else 0 }

/-- A degenerate bounding box whose padded right/bottom edges are still
negative, so the numpy slice ends wrap around the frame. -/
def c6bbox : Bbox := { x1 := 0, y1 := 0, x2 := -20, y2 := -20 }

/-! ## Theorems -/

/-- Positions inside the original extent are fixed by the reflect index
map: `np.pad(..., mode='reflect')` keeps the original data in place. -/
lemma reflectIndex_of_lt (n i : Nat) (h : i < n) : reflectIndex n i = i := by
  unfold reflectIndex
  by_cases h1 : n ≤ 1
  · rw [if_pos h1]; omega
  · rw [if_neg h1]
    have hm : i % (2 * (n - 1)) = i := Nat.mod_eq_of_lt (by omega)
    simp only [hm]
    rw [if_pos h]

/-- Shape and content of `_pad_to_mod` with stride 8, uniformly over its
two branches: the padded extents, the returned original shape, and the
reflect-copy description of every pixel of the padded raster. -/
lemma padToMod_spec {α : Type} (g : Grid α) :
    (padToMod g 8).1.h = g.h + (8 - g.h % 8) % 8 ∧
    (padToMod g 8).1.w = g.w + (8 - g.w % 8) % 8 ∧
    (padToMod g 8).2 = (g.h, g.w) ∧
    (∀ y x, y < (padToMod g 8).1.h → x < (padToMod g 8).1.w →
      (padToMod g 8).1.px y x = g.px (reflectIndex g.h y) (reflectIndex g.w x)) := by
  simp only [padToMod]
  split_ifs with hp
  · exact ⟨rfl, rfl, rfl, fun y x _ _ => rfl⟩
  · push_neg at hp
    refine ⟨by dsimp only; omega, by dsimp only; omega, rfl, ?_⟩
    intro y x hy hx
    dsimp only at hy hx ⊢
    rw [reflectIndex_of_lt _ _ (by omega), reflectIndex_of_lt _ _ (by omega)]

/-- Claim C2, counterexample: the 7 x 8 mask `c2mask` is padded to 8 rows
for the stride, and the added padding row 7 carries the reflected value 255
of mask row 5 — the mask is reflect-padded like the image, not zero-padded
as the claim states. -/
theorem padMask_reflect_not_zero :
    c2mask.h = 7 ∧ (padToMod c2mask 8).1.h = 8 ∧
    (padToMod c2mask 8).1.px 7 0 = 255 ∧ ((255 : Int) ≠ 0) :=
  ⟨rfl, rfl, rfl, by decide⟩

/-- Claim C2, amended: before model-based inpainting both the image and the
mask are padded to the next multiple of the stride 8 — each position of
either padded raster is the reflect-copy of a source position, so the mask
is reflect-padded too, not zero-padded — and the inference result is
cropped back to the original image height and width. -/
theorem inpaintFrame_pad_reflect_crop {α : Type} (lamaRun : Grid α → Grid α → Grid α)
    (frame mask : Grid α) :
    ((padToMod frame 8).1.h % 8 = 0 ∧ (padToMod frame 8).1.w % 8 = 0 ∧
      frame.h ≤ (padToMod frame 8).1.h ∧ (padToMod frame 8).1.h < frame.h + 8 ∧
      frame.w ≤ (padToMod frame 8).1.w ∧ (padToMod frame 8).1.w < frame.w + 8) ∧
    ((padToMod mask 8).1.h % 8 = 0 ∧ (padToMod mask 8).1.w % 8 = 0) ∧
    (∀ y x, y < (padToMod frame 8).1.h → x < (padToMod frame 8).1.w →
      (padToMod frame 8).1.px y x = frame.px (reflectIndex frame.h y) (reflectIndex frame.w x)) ∧
    (∀ y x, y < (padToMod mask 8).1.h → x < (padToMod mask 8).1.w →
      (padToMod mask 8).1.px y x = mask.px (reflectIndex mask.h y) (reflectIndex mask.w x)) ∧
    (∀ y x, y < frame.h → x < frame.w → (padToMod frame 8).1.px y x = frame.px y x) ∧
    (inpaintFrameShape lamaRun frame mask).h = frame.h ∧
    (inpaintFrameShape lamaRun frame mask).w = frame.w ∧
    (∀ y x, (inpaintFrameShape lamaRun frame mask).px y x =
      (lamaRun (padToMod frame 8).1 (padToMod mask 8).1).px y x) := by
  obtain ⟨f1, f2, f3, f4⟩ := padToMod_spec frame
  obtain ⟨m1, m2, m3, m4⟩ := padToMod_spec mask
  refine ⟨⟨by omega, by omega, by omega, by omega, by omega, by omega⟩, ⟨by omega, by omega⟩,
    f4, m4, ?_, ?_, ?_, ?_⟩
  · intro y x hy hx
    rw [f4 y x (by omega) (by omega), reflectIndex_of_lt _ _ hy, reflectIndex_of_lt _ _ hx]
  · simp only [inpaintFrameShape, cropTo]
    rw [f3]
  · simp only [inpaintFrameShape, cropTo]
    rw [f3]
  · intro y x
    simp only [inpaintFrameShape, cropTo]

/-- Claim C6, counterexample: on a 10 x 10 frame with the degenerate bbox
`c6bbox` (negative right/bottom even after padding 15), numpy's negative
slice ends wrap around: the mask marks the 5 x 5 corner block — pixel (3,3)
is marked although it lies outside the padded, clamped bbox, and the marked
area 25 exceeds the padded/clamped bbox area 0. -/
theorem createMask_wrap_cex :
    (createMask 10 10 c6bbox 15).h = 10 ∧ (createMask 10 10 c6bbox 15).w = 10 ∧
    maskArea (createMask 10 10 c6bbox 15) = 25 ∧
    clampedBboxArea 10 10 c6bbox 15 = 0 ∧
    ¬ (maskArea (createMask 10 10 c6bbox 15) ≤ clampedBboxArea 10 10 c6bbox 15) ∧
    (createMask 10 10 c6bbox 15).px 3 3 = 255 ∧
    ¬ inClampedRegion 10 10 c6bbox 15 3 3 :=
  ⟨rfl, rfl, by decide, by decide, by decide, by decide, by decide⟩

/-- Claim C6, amended: for every frame shape and every bbox whose padded
right and bottom coordinates are non-negative (in particular every bbox
with non-negative coordinates, which is all the detector produces), the
mask is exactly `H x W`, its marked region is exactly the padded bbox
clamped to the frame, and the marked area exceeds neither the
padded/clamped bbox area nor the frame area. -/
theorem createMask_spec (H W : Nat) (bbox : Bbox) (padding : Int)
    (hx : 0 ≤ bbox.x2 + padding) (hy : 0 ≤ bbox.y2 + padding) :
    (createMask H W bbox padding).h = H ∧
    (createMask H W bbox padding).w = W ∧
    (∀ y x, y < H → x < W →
      ((createMask H W bbox padding).px y x = 255 ↔ inClampedRegion H W bbox padding y x)) ∧
    maskArea (createMask H W bbox padding) ≤ clampedBboxArea H W bbox padding ∧
    maskArea (createMask H W bbox padding) ≤ H * W := by
  have ey : npSliceEnd H (min (H : Int) (bbox.y2 + padding)) =
      min (H : Int) (bbox.y2 + padding) := by
    unfold npSliceEnd
    split_ifs with h <;> omega
  have ex : npSliceEnd W (min (W : Int) (bbox.x2 + padding)) =
      min (W : Int) (bbox.x2 + padding) := by
    unfold npSliceEnd
    split_ifs with h <;> omega
  refine ⟨rfl, rfl, ?_, ?_, ?_⟩
  · intro y x hyH hxW
    simp only [createMask]
    split_ifs with hc
    · refine iff_of_true rfl ?_
      unfold inClampedRegion
      rw [ey, ex] at hc
      omega
    · refine iff_of_false (by simp) ?_
      intro hreg
      apply hc
      unfold inClampedRegion at hreg
      rw [ey, ex]
      omega
  · unfold maskArea clampedBboxArea
    have hsub : ((Finset.range (createMask H W bbox padding).h) ×ˢ
        (Finset.range (createMask H W bbox padding).w)).filter
          (fun yx => (createMask H W bbox padding).px yx.1 yx.2 = 255) ⊆
        (Finset.Ico (max 0 (bbox.y1 - padding)).toNat
            (min (H : Int) (bbox.y2 + padding)).toNat) ×ˢ
        (Finset.Ico (max 0 (bbox.x1 - padding)).toNat
            (min (W : Int) (bbox.x2 + padding)).toNat) := by
      intro p hp
      simp only [Finset.mem_filter, Finset.mem_product, Finset.mem_range] at hp
      obtain ⟨⟨hp1, hp2⟩, hp3⟩ := hp
      simp only [createMask] at hp3
      split_ifs at hp3 with hc
      rw [ey, ex] at hc
      simp only [Finset.mem_product, Finset.mem_Ico]
      omega
    refine le_trans (Finset.card_le_card hsub) ?_
    rw [Finset.card_product, Nat.card_Ico, Nat.card_Ico]
    exact Nat.mul_le_mul (by omega) (by omega)
  · unfold maskArea
    refine le_trans (Finset.card_filter_le _ _) ?_
    rw [Finset.card_product, Finset.card_range, Finset.card_range]
    exact le_of_eq rfl

/-- The backward scan finds nothing when no entry of the list is
detected. -/
lemma lookBack_eq_none (R : List Detection) (h : ∀ e ∈ R, e.detected = false) :
    ∀ j, lookBack R j = none := by
  intro j
  induction j with
  | zero => rfl
  | succ m ih =>
    simp only [lookBack]
    cases hR : R[m]? with
    | none => exact ih
    | some d =>
      have hd : d.detected = false := h d (List.getElem?_mem hR)
      simp [hd, ih]

/-- The forward scan finds nothing when no entry of the list is detected. -/
lemma lookForward_eq_none (R : List Detection) (h : ∀ e ∈ R, e.detected = false) (j : Nat) :
    lookForward R j = none := by
  unfold lookForward
  have hfind : (R.drop j).find? (fun d => d.detected) = none :=
    List.find?_eq_none.mpr (fun x hx => by simp [h x (List.drop_subset j R hx)])
  rw [hfind]

/-- On an all-missing list one gap-filling iteration is the identity. -/
lemma fillStep_allMiss (R : List Detection) (h : ∀ e ∈ R, e.detected = false) (idx : Nat) :
    fillStep R idx = R := by
  simp only [fillStep, lookBack_eq_none R h, lookForward_eq_none R h]
  cases hR : R[idx]? <;> rfl

/-- On an all-missing list the whole gap-filling loop is the identity, for
any missed-index list. -/
lemma fillMissed_allMiss (R : List Detection) (h : ∀ e ∈ R, e.detected = false)
    (ms : List Nat) : fillMissed R ms = R := by
  induction ms with
  | nil => rfl
  | cons m ms ih =>
    unfold fillMissed at *
    rw [List.foldl_cons, fillStep_allMiss R h m]
    exact ih

/-- Claim C7: for a detection list in which no frame is detected, the
gap-filling pass of `detect_video` returns the list unchanged, and the
inpaint dispatcher returns every frame identical to its input (for the
pipeline's equal-length frame/detection lists, any inpainting functions and
any inpainter state). -/
theorem allMissing_passthrough {α : Type} (fallbackF lamaF : α → Bbox → α) (ip : Inpainter)
    (R : List Detection) (frames : List α)
    (hmiss : ∀ e ∈ R, e.detected = false) (hlen : frames.length = R.length) :
    detectVideo R = R ∧ (inpaintVideoRun fallbackF lamaF ip frames R).1 = frames := by
  constructor
  · simp only [detectVideo]
    split_ifs with hemp
    · rfl
    · exact fillMissed_allMiss R hmiss _
  · show ((frames.zip R).map (frameDispatch fallbackF lamaF ip)).map Prod.fst = frames
    rw [List.map_map]
    have hcong : ∀ p ∈ frames.zip R,
        (Prod.fst ∘ frameDispatch fallbackF lamaF ip) p = Prod.fst p := by
      intro p hp
      rcases p with ⟨f, d⟩
      have h2 : d.detected = false := hmiss d (List.of_mem_zip hp).2
      simp only [Function.comp_apply, frameDispatch, h2]
      rfl
    rw [List.map_congr_left hcong]
    exact List.map_fst_zip frames R (le_of_eq hlen)

/-- Witness for `allMissing_passthrough`: three all-missing detections and
three frames pass through both stages unchanged. -/
theorem allMissing_passthrough_w :
    detectVideo (List.replicate 3 dfltDet) = List.replicate 3 dfltDet ∧
    (inpaintVideoRun (fun (f : Nat) (_ : Bbox) => f + 1) (fun f _ => f + 2)
      { model := ModelHandle.lama, useFallback := false }
      [10, 20, 30] (List.replicate 3 dfltDet)).1 = [10, 20, 30] :=
  allMissing_passthrough (fun f _ => f + 1) (fun f _ => f + 2)
    { model := ModelHandle.lama, useFallback := false }
    (List.replicate 3 dfltDet) [10, 20, 30] (by decide) (by decide)

/-- Claim C10: a frame whose detection has `detected` true but `bbox`
`None` fails the `detection["detected"] and detection["bbox"]` test, so the
dispatcher passes it through unchanged; the inpainting composites (and
hence `create_mask`) are only ever invoked with a present bbox — in this
embedding they take a plain `Bbox`, so a missing bbox cannot reach them. -/
theorem detectedNoneBbox_passthrough {α : Type} (fallbackF lamaF : α → Bbox → α)
    (ip : Inpainter) (frames : List α) (dets : List Detection) (i : Nat)
    (hif : i < frames.length) (hid : i < dets.length)
    (hdet : (detAt dets i).detected = true) (hnone : (detAt dets i).bbox = none) :
    (inpaintVideoRun fallbackF lamaF ip frames dets).1[i]? = frames[i]? := by
  have hiz : i < (frames.zip dets).length := by
    rw [List.length_zip]
    omega
  show (((frames.zip dets).map (frameDispatch fallbackF lamaF ip)).map Prod.fst)[i]? = _
  rw [List.getElem?_map, List.getElem?_map, List.getElem?_eq_getElem hiz, List.getElem_zip]
  have hdi : dets[i] = detAt dets i := by
    unfold detAt
    rw [List.getElem?_eq_getElem hid]
    rfl
  simp only [Option.map_some']
  unfold frameDispatch
  rw [hdi, if_pos hdet, hnone]
  rw [List.getElem?_eq_getElem hif]

/-- Witness for `detectedNoneBbox_passthrough`: the middle frame of three,
detected with a missing bbox, comes out identical to its input. -/
theorem detectedNoneBbox_passthrough_w :
    (inpaintVideoRun (fun (f : Nat) (_ : Bbox) => f + 1) (fun f _ => f + 2)
      { model := ModelHandle.lama, useFallback := false }
      [7, 8, 9]
      [dfltDet, { detected := true, bbox := none, interpolated := false }, dfltDet]).1[1]? =
    [7, 8, 9][1]? :=
  detectedNoneBbox_passthrough (fun f _ => f + 1) (fun f _ => f + 2)
    { model := ModelHandle.lama, useFallback := false }
    [7, 8, 9] [dfltDet, { detected := true, bbox := none, interpolated := false }, dfltDet] 1
    (by decide) (by decide) (by decide) (by decide)

/-- With the fallback selected, every event a dispatched frame can emit is
`fallbackUsed` — never a model load, never the LAMA path. -/
lemma frameDispatch_events_fallback {α : Type} (fallbackF lamaF : α → Bbox → α)
    (ip : Inpainter) (hip : ip.useFallback = true) (p : α × Detection) (e : InpaintEvent)
    (he : e ∈ (frameDispatch fallbackF lamaF ip p).2) : e = InpaintEvent.fallbackUsed := by
  unfold frameDispatch at he
  split_ifs at he with h1
  · cases hb : p.2.bbox with
    | none =>
      rw [hb] at he
      simp at he
    | some b =>
      rw [hb] at he
      simp [hip] at he
      exact he
  · simp at he

/-- Claim C4: when the model load fails at construction, the inpainter is
built with `use_fallback` true after exactly one load attempt (non-fatal:
construction still yields an inpainter), and a whole `inpaint_video` run
over any frames and detections processes every frame (output length equals
the zipped input length), uses only the fallback path, and never attempts
to load the model again. -/
theorem fallbackInit_wholeRun {α : Type} (fallbackF lamaF : α → Bbox → α)
    (frames : List α) (dets : List Detection) :
    (mkInpainter none (Except.error ())).1.useFallback = true ∧
    (mkInpainter none (Except.error ())).2.2 = [InpaintEvent.modelLoadAttempt] ∧
    (inpaintVideoRun fallbackF lamaF (mkInpainter none (Except.error ())).1 frames dets).1.length
      = min frames.length dets.length ∧
    (∀ e ∈ (inpaintVideoRun fallbackF lamaF (mkInpainter none (Except.error ())).1 frames dets).2,
      e = InpaintEvent.fallbackUsed) ∧
    InpaintEvent.modelLoadAttempt ∉
      (inpaintVideoRun fallbackF lamaF (mkInpainter none (Except.error ())).1 frames dets).2 := by
  have hall : ∀ e ∈ (inpaintVideoRun fallbackF lamaF (mkInpainter none (Except.error ())).1
      frames dets).2, e = InpaintEvent.fallbackUsed := by
    intro e he
    simp only [inpaintVideoRun, List.mem_flatten, List.mem_map] at he
    obtain ⟨l, ⟨q, ⟨p, hp, rfl⟩, rfl⟩, hel⟩ := he
    exact frameDispatch_events_fallback fallbackF lamaF _ rfl p e hel
  refine ⟨rfl, rfl, ?_, hall, ?_⟩
  · show (((frames.zip dets).map _).map Prod.fst).length = _
    rw [List.length_map, List.length_map, List.length_zip]
  · intro hmem
    exact (by decide : InpaintEvent.modelLoadAttempt ≠ InpaintEvent.fallbackUsed) (hall _ hmem)

/-- In-range indexing agrees with `detAt`. -/
lemma detAt_eq_getElem (R : List Detection) (j : Nat) (h : j < R.length) :
    R[j]? = some (detAt R j) := by
  unfold detAt
  rw [List.getElem?_eq_getElem h]
  rfl

/-- A detected entry lies inside the list (the out-of-range default is
not detected). -/
lemma detAt_detected_lt (R : List Detection) (j : Nat) (h : (detAt R j).detected = true) :
    j < R.length := by
  by_contra hge
  push_neg at hge
  unfold detAt at h
  rw [List.getElem?_eq_none hge] at h
  simp [dfltDet] at h

/-- Soundness of `nearestBefore`: it returns a detected index strictly
before `b` with no detected index between. -/
lemma nearestBefore_spec (R : List Detection) :
    ∀ b d, nearestBefore R b = some d →
      d < b ∧ (detAt R d).detected = true ∧
      ∀ i, d < i → i < b → (detAt R i).detected = false := by
  intro b
  induction b with
  | zero => intro d hd; simp [nearestBefore] at hd
  | succ m ih =>
    intro d hd
    simp only [nearestBefore] at hd
    cases hR : R[m]? with
    | some e =>
      rw [hR] at hd
      dsimp only at hd
      by_cases he : e.detected = true
      · rw [if_pos he] at hd
        have hmd : m = d := Option.some.inj hd
        subst hmd
        refine ⟨by omega, ?_, ?_⟩
        · show ((R[m]?).getD dfltDet).detected = true
          rw [hR]
          exact he
        · intro i h1 h2
          omega
      · rw [if_neg he] at hd
        obtain ⟨h1, h2, h3⟩ := ih d hd
        refine ⟨by omega, h2, ?_⟩
        intro i hi1 hi2
        by_cases him : i = m
        · subst him
          show ((R[i]?).getD dfltDet).detected = false
          rw [hR]
          simpa using he
        · exact h3 i hi1 (by omega)
    | none =>
      rw [hR] at hd
      dsimp only at hd
      obtain ⟨h1, h2, h3⟩ := ih d hd
      refine ⟨by omega, h2, ?_⟩
      intro i hi1 hi2
      by_cases him : i = m
      · subst him
        show ((R[i]?).getD dfltDet).detected = false
        rw [hR]
        rfl
      · exact h3 i hi1 (by omega)

/-- Completeness of `nearestBefore`: a detected index with an all-missing
gap up to `m` is what the scan returns at `m`. -/
lemma nearestBefore_complete (R : List Detection) :
    ∀ m d, d < m → (detAt R d).detected = true →
      (∀ i, d < i → i < m → (detAt R i).detected = false) →
      nearestBefore R m = some d := by
  intro m
  induction m with
  | zero => intro d h; omega
  | succ j ih =>
    intro d hdm hdet hgap
    simp only [nearestBefore]
    cases hR : R[j]? with
    | some e =>
      dsimp only
      have hde : detAt R j = e := by
        unfold detAt
        rw [hR]
        rfl
      by_cases hjd : j = d
      · subst hjd
        have he : e.detected = true := by
          rw [← hde]
          exact hdet
        rw [if_pos he]
      · have hdj : d < j := by omega
        have hjmiss : (detAt R j).detected = false := hgap j hdj (by omega)
        have he : ¬ (e.detected = true) := by
          rw [← hde]
          simp [hjmiss]
        rw [if_neg he]
        exact ih d hdj hdet (fun i h1 h2 => hgap i h1 (by omega))
    | none =>
      dsimp only
      have hdj : d < j := by
        rcases Nat.lt_succ_iff_lt_or_eq.mp hdm with h | h
        · exact h
        · exfalso
          subst h
          unfold detAt at hdet
          rw [hR] at hdet
          simp [dfltDet] at hdet
      exact ih d hdj hdet (fun i h1 h2 => hgap i h1 (by omega))

/-- The nearest detected frame before `b` is also the nearest detected
frame before any position inside the gap. -/
lemma nearestBefore_between (R : List Detection) (b d m : Nat)
    (hnb : nearestBefore R b = some d) (h1 : d < m) (h2 : m < b) :
    nearestBefore R m = some d := by
  obtain ⟨hd1, hd2, hd3⟩ := nearestBefore_spec R b d hnb
  exact nearestBefore_complete R m d h1 hd2 (fun i hi1 hi2 => hd3 i hi1 (by omega))

/-- One gap-filling iteration either leaves the list alone or rewrites the
single entry at its index. -/
lemma fillStep_cases (R : List Detection) (i : Nat) :
    fillStep R i = R ∨ ∃ v, fillStep R i = R.set i v := by
  simp only [fillStep]
  cases R[i]? with
  | none => exact Or.inl rfl
  | some d =>
    cases lookBack R i with
    | some b => exact Or.inr ⟨_, rfl⟩
    | none =>
      cases lookForward R (i + 1) with
      | some b => exact Or.inr ⟨_, rfl⟩
      | none => exact Or.inl rfl

/-- Gap filling preserves the number of frames. -/
lemma fillStep_length (R : List Detection) (i : Nat) : (fillStep R i).length = R.length := by
  rcases fillStep_cases R i with h | ⟨v, h⟩ <;> rw [h]
  rw [List.length_set]

/-- Gap filling at one index leaves every other entry unchanged. -/
lemma fillStep_detAt_ne (R : List Detection) (i j : Nat) (h : j ≠ i) :
    detAt (fillStep R i) j = detAt R j := by
  rcases fillStep_cases R i with hh | ⟨v, hh⟩ <;> rw [hh]
  unfold detAt
  rw [List.getElem?_set_ne (Ne.symm h)]

/-- The fold over the missed indices of a tail segment of `R0` is the
position sweep `fillFrom`. -/
lemma fillMissed_range' (R0 : List Detection) :
    ∀ (k b : Nat) (R : List Detection), b + k = R0.length →
      fillMissed R ((List.range' b k).filter (fun i => !(detAt R0 i).detected)) =
        fillFrom R0 R b := by
  intro k
  induction k with
  | zero =>
    intro b R hbk
    rw [fillFrom, dif_neg (by omega)]
    rfl
  | succ k ih =>
    intro b R hbk
    have hb : b < R0.length := by omega
    rw [List.range'_succ, List.filter_cons, fillFrom, dif_pos hb]
    by_cases hdet : (detAt R0 b).detected
    · rw [if_pos hdet, if_neg (by simp [hdet])]
      exact ih (b + 1) R (by omega)
    · have hdf : (detAt R0 b).detected = false := by simpa using hdet
      rw [if_neg hdet, if_pos (by simp [hdf])]
      show fillMissed R (b :: _) = _
      unfold fillMissed
      rw [List.foldl_cons]
      exact ih (b + 1) (fillStep R b) (by omega)

/-- The gap-filling pass of `detect_video` is the whole-list sweep. -/
lemma fillMissed_missedIndices (R0 : List Detection) :
    fillMissed R0 (missedIndices R0) = fillFrom R0 R0 0 := by
  have h := fillMissed_range' R0 R0.length 0 R0 (by omega)
  rw [missedIndices, List.range_eq_range']
  exact h

/-- Under the sweep invariant, the backward scan at a missed position lands
on the nearest earlier directly-detected frame's bbox: the entry it stops
at is either that frame itself or an already-filled copy of its bbox. -/
lemma lookBack_fill (R0 R : List Detection) (b d : Nat)
    (hlen : R.length = R0.length)
    (h2 : ∀ j, (detAt R0 j).detected = true → detAt R j = detAt R0 j)
    (h4 : ∀ j e, j < b → (detAt R0 j).detected = false → nearestBefore R0 j = some e →
      (detAt R j).detected = true ∧ (detAt R j).bbox = (detAt R0 e).bbox)
    (hb : b < R0.length) (hnb : nearestBefore R0 b = some d) :
    lookBack R b = (detAt R0 d).bbox := by
  obtain ⟨hd1, hd2, hd3⟩ := nearestBefore_spec R0 b d hnb
  cases b with
  | zero => omega
  | succ m =>
    have hmlt : m < R.length := by omega
    simp only [lookBack]
    rw [detAt_eq_getElem R m hmlt]
    dsimp only
    by_cases hmd : m = d
    · subst hmd
      rw [h2 m hd2, if_pos hd2]
    · have hdm : d < m := by omega
      have hmmiss : (detAt R0 m).detected = false := hd3 m hdm (by omega)
      have hm4 := h4 m d (by omega) hmmiss
        (nearestBefore_between R0 (m + 1) d m hnb hdm (by omega))
      rw [if_pos hm4.1]
      exact hm4.2

/-- The sweep establishes the invariant at the end of the list: every
missed entry with an earlier directly-detected frame ends up detected and
carrying that nearest frame's bbox. -/
lemma fillFrom_inv (R0 : List Detection)
    (wf : ∀ i, i < R0.length → (detAt R0 i).detected = true → (detAt R0 i).bbox.isSome) :
    ∀ (k b : Nat) (R : List Detection), b + k = R0.length → FillInv R0 R b →
      FillInv R0 (fillFrom R0 R b) R0.length := by
  intro k
  induction k with
  | zero =>
    intro b R hbk hInv
    rw [fillFrom, dif_neg (by omega)]
    have hb : b = R0.length := by omega
    rw [← hb]
    exact hInv
  | succ k ih =>
    intro b R hbk hInv
    obtain ⟨hlen, h2, h3, h4⟩ := hInv
    have hb : b < R0.length := by omega
    rw [fillFrom, dif_pos hb]
    by_cases hdet : (detAt R0 b).detected
    · rw [if_pos hdet]
      apply ih (b + 1) R (by omega)
      refine ⟨hlen, h2, fun j hj hmj => h3 j (by omega) hmj, ?_⟩
      intro j e hj hmj hnbj
      rcases Nat.lt_succ_iff_lt_or_eq.mp hj with hj' | hj'
      · exact h4 j e hj' hmj hnbj
      · subst hj'
        exact absurd hdet (by simp [hmj])
    · rw [if_neg hdet]
      have hdf : (detAt R0 b).detected = false := by simpa using hdet
      apply ih (b + 1) (fillStep R b) (by omega)
      refine ⟨by rw [fillStep_length]; exact hlen, ?_, ?_, ?_⟩
      · intro j hj
        have hjb : j ≠ b := by
          intro heq
          subst heq
          exact absurd hj (by simp [hdf])
        rw [fillStep_detAt_ne R b j hjb]
        exact h2 j hj
      · intro j hj hmj
        have hjb : j ≠ b := by omega
        rw [fillStep_detAt_ne R b j hjb]
        exact h3 j (by omega) hmj
      · intro j e hj hmj hnbj
        rcases Nat.lt_succ_iff_lt_or_eq.mp hj with hj' | hj'
        · have hjb : j ≠ b := by omega
          rw [fillStep_detAt_ne R b j hjb]
          exact h4 j e hj' hmj hnbj
        · subst hj'
          have hlb : lookBack R j = (detAt R0 e).bbox :=
            lookBack_fill R0 R j e hlen h2 h4 hb hnbj
          have hsome : ((detAt R0 e).bbox).isSome = true := by
            obtain ⟨he1, he2, he3⟩ := nearestBefore_spec R0 j e hnbj
            exact wf e (by omega) he2
          obtain ⟨bb, hbb⟩ := Option.isSome_iff_exists.mp hsome
          have hbR : R[j]? = some (detAt R j) := detAt_eq_getElem R j (by omega)
          have hset : fillStep R j =
              R.set j { detAt R j with detected := true, bbox := some bb, interpolated := true } := by
            simp only [fillStep]
            rw [hbR, hlb, hbb]
          rw [hset]
          unfold detAt
          rw [List.getElem?_set_self (by omega)]
          exact ⟨rfl, hbb.symm⟩

/-- Claim C1: for every detection list whose detected entries carry a bbox
and every non-detected index with a directly-detected frame somewhere
earlier (`nearestBefore` returns one) and somewhere later, the gap-filling
pass of `detect_video` marks that index detected with exactly the bbox of
the nearest earlier directly-detected frame — never the forward
neighbour's. -/
theorem gapFill_nearest_backward (R0 : List Detection)
    (wf : ∀ i, i < R0.length → (detAt R0 i).detected = true → (detAt R0 i).bbox.isSome)
    (idx d : Nat) (hidx : idx < R0.length)
    (hmiss : (detAt R0 idx).detected = false)
    (hnb : nearestBefore R0 idx = some d)
    (hfwd : ∃ j, idx < j ∧ j < R0.length ∧ (detAt R0 j).detected = true) :
    (detAt (detectVideo R0) idx).detected = true ∧
    (detAt (detectVideo R0) idx).bbox = (detAt R0 d).bbox := by
  have hmem : idx ∈ missedIndices R0 := by
    unfold missedIndices
    rw [List.mem_filter]
    exact ⟨List.mem_range.mpr hidx, by simp [hmiss]⟩
  have hne : (missedIndices R0).isEmpty = false := by
    rcases hml : missedIndices R0 with _ | ⟨a, l⟩
    · rw [hml] at hmem
      simp at hmem
    · rfl
  have hdv : detectVideo R0 = fillFrom R0 R0 0 := by
    simp only [detectVideo]
    rw [hne]
    simp only [Bool.false_eq_true, if_false]
    exact fillMissed_missedIndices R0
  rw [hdv]
  have hInv0 : FillInv R0 R0 0 :=
    ⟨rfl, fun _ _ => rfl, fun _ _ _ => rfl, fun j e hj _ _ => absurd hj (by omega)⟩
  have hfin := fillFrom_inv R0 wf R0.length 0 R0 (by omega) hInv0
  exact hfin.2.2.2 idx d hidx hmiss hnb

/-- Witness for `gapFill_nearest_backward`, the Scenario A instance:
10 frames with direct detections at 0, 1, 2, 7, 8, 9 — the filled frames
3 through 6 all end up detected with frame 2's bbox. -/
theorem gapFill_nearest_backward_w :
    ((detAt (detectVideo ex10) 3).detected = true ∧
      (detAt (detectVideo ex10) 3).bbox = (detAt ex10 2).bbox) ∧
    ((detAt (detectVideo ex10) 4).detected = true ∧
      (detAt (detectVideo ex10) 4).bbox = (detAt ex10 2).bbox) ∧
    ((detAt (detectVideo ex10) 5).detected = true ∧
      (detAt (detectVideo ex10) 5).bbox = (detAt ex10 2).bbox) ∧
    ((detAt (detectVideo ex10) 6).detected = true ∧
      (detAt (detectVideo ex10) 6).bbox = (detAt ex10 2).bbox) :=
  ⟨gapFill_nearest_backward ex10 (by decide) 3 2 (by decide) (by decide) (by decide)
      ⟨7, by decide⟩,
   gapFill_nearest_backward ex10 (by decide) 4 2 (by decide) (by decide) (by decide)
      ⟨7, by decide⟩,
   gapFill_nearest_backward ex10 (by decide) 5 2 (by decide) (by decide) (by decide)
      ⟨7, by decide⟩,
   gapFill_nearest_backward ex10 (by decide) 6 2 (by decide) (by decide) (by decide)
      ⟨7, by decide⟩⟩

/-- Witness for `createMask_spec`: a well-formed bbox on a 20 x 20 frame. -/
theorem createMask_spec_w :
    (createMask 20 20 { x1 := 8, y1 := 9, x2 := 12, y2 := 13 } 15).h = 20 ∧
    (createMask 20 20 { x1 := 8, y1 := 9, x2 := 12, y2 := 13 } 15).w = 20 ∧
    (∀ y x, y < 20 → x < 20 →
      ((createMask 20 20 { x1 := 8, y1 := 9, x2 := 12, y2 := 13 } 15).px y x = 255 ↔
        inClampedRegion 20 20 { x1 := 8, y1 := 9, x2 := 12, y2 := 13 } 15 y x)) ∧
    maskArea (createMask 20 20 { x1 := 8, y1 := 9, x2 := 12, y2 := 13 } 15) ≤
      clampedBboxArea 20 20 { x1 := 8, y1 := 9, x2 := 12, y2 := 13 } 15 ∧
    maskArea (createMask 20 20 { x1 := 8, y1 := 9, x2 := 12, y2 := 13 } 15) ≤ 20 * 20 :=
  createMask_spec 20 20 { x1 := 8, y1 := 9, x2 := 12, y2 := 13 } 15 (by decide) (by decide)

/-- Claim C3, counterexample: with a probed 100 x 50 input and
`crop_pixels = 60` from the bottom, crop-mode processing fails with the
external ffmpeg error, which is not the `InvalidModeOptionsError` the claim
names — `process_crop` performs no validation of its own. -/
theorem processCrop_oversized_error_kind :
    processCrop 100 50 60 "bottom" = Except.error CropError.ffmpegFailure ∧
    CropError.ffmpegFailure ≠ CropError.invalidModeOptions := by
  constructor
  · rfl
  · decide

/-- Claim C3, amended: whenever the crop amount exceeds the dimension it is
subtracted from (the width for left/right, the height for every other
position string), crop-mode processing produces no output and fails — with
the ffmpeg process error, since no `InvalidModeOptionsError` exists in the
worker. -/
theorem processCrop_oversized_fails (w h c : Int) (pos : String)
    (hex : if pos = "left" ∨ pos = "right" then w < c else h < c) :
    processCrop w h c pos = Except.error CropError.ffmpegFailure := by
  have herr : ∀ f : CropFilter, f.outW ≤ 0 ∨ f.outH ≤ 0 →
      runCropFfmpeg w h f = Except.error CropError.ffmpegFailure := by
    intro f hf
    unfold runCropFfmpeg
    rw [if_neg (by omega)]
  have hbad : (buildCropFilter w h c pos).outW ≤ 0 ∨ (buildCropFilter w h c pos).outH ≤ 0 := by
    by_cases hlr : pos = "left" ∨ pos = "right"
    · rw [if_pos hlr] at hex
      rcases hlr with h1 | h1 <;> subst h1 <;> simp [buildCropFilter] <;> omega
    · rw [if_neg hlr] at hex
      unfold buildCropFilter
      split_ifs with h1 h2 h3 h4 <;> dsimp only <;> try omega
      · exact absurd (Or.inl h3) hlr
      · exact absurd (Or.inr h4) hlr
  simp only [processCrop]
  rw [herr _ hbad]

/-- Witness for `processCrop_oversized_fails`: 60 pixels cropped from the
bottom of a 100 x 50 input fail with the ffmpeg error. -/
theorem processCrop_oversized_fails_w :
    processCrop 100 50 60 "bottom" = Except.error CropError.ffmpegFailure :=
  processCrop_oversized_fails 100 50 60 "bottom" (by decide)

/-- Claim C5: when the audio-mux step fails on a nonempty frame sequence,
`save_video_frames` does not raise — the silent raw encode is renamed into
place as the final output and the condition is recorded only as the
`Could not merge audio` warning. -/
theorem saveVideoFrames_muxFail_silent (n : Nat) (hn : 0 < n) :
    saveVideoFrames n false =
      Except.ok { final := FinalVideo.silentRenamed, audioWarning := true } := by
  unfold saveVideoFrames
  rw [if_neg (by omega)]
  rfl

/-- Witness for `saveVideoFrames_muxFail_silent` at a 120-frame run. -/
theorem saveVideoFrames_muxFail_silent_w :
    saveVideoFrames 120 false =
      Except.ok { final := FinalVideo.silentRenamed, audioWarning := true } :=
  saveVideoFrames_muxFail_silent 120 (by decide)

/-- Claim C8: the progress values that the `process_inpaint` update calls
would assign are monotonically non-decreasing in both the detected and
no-detection branches, and the intended full sequence runs 0 through 100 —
but the calls that actually execute stop at 15, because the
`progress_callback` keyword passed to `detect_video` at line 290 is not in
that method's signature and raises `TypeError`; the executed assignments
are exactly 0, 5, 15 and never reach 100. -/
theorem inpaintProgress_stops_at_15 :
    List.Chain' (· ≤ ·) (assignedProgress (inpaintUpdateCallsFull true)) ∧
    List.Chain' (· ≤ ·) (assignedProgress (inpaintUpdateCallsFull false)) ∧
    assignedProgress (inpaintUpdateCallsFull true) = [0, 5, 15, 40, 45, 85, 100] ∧
    assignedProgress inpaintUpdateCallsExecuted = [0, 5, 15] ∧
    100 ∉ assignedProgress inpaintUpdateCallsExecuted ∧
    ((statusTrace inpaintUpdateCallsExecuted
        { currentStage := "initializing", progress := 0 }).map
      (fun s => s.progress)).getLast? = some 15 := by
  have e1 : assignedProgress (inpaintUpdateCallsFull true) = [0, 5, 15, 40, 45, 85, 100] := rfl
  have e2 : assignedProgress (inpaintUpdateCallsFull false) = [0, 5, 15, 40, 85, 100] := rfl
  have e3 : assignedProgress inpaintUpdateCallsExecuted = [0, 5, 15] := rfl
  refine ⟨?_, ?_, e1, e3, ?_, rfl⟩
  · rw [e1]; norm_num [List.chain'_cons]
  · rw [e2]; norm_num [List.chain'_cons]
  · rw [e3]; decide

/-- Claim C9: for every `crop_position` string outside top/bottom/left/right
(and a crop amount the input can absorb), `process_crop` silently applies
the bottom-crop filter — the actual output height is `h - crop_pixels` —
while the returned record reports `output_size` as the unmodified original
`(width, height)`. -/
theorem processCrop_unknown_position (w h c : Int) (pos : String)
    (hw : 0 < w) (hc : 0 ≤ c) (hch : c < h)
    (hpos : pos ≠ "top" ∧ pos ≠ "bottom" ∧ pos ≠ "left" ∧ pos ≠ "right") :
    processCrop w h c pos =
      Except.ok ({ outW := w, outH := h - c, x := 0, y := 0 },
        { cropPixels := c, cropPosition := pos, originalW := w, originalH := h,
          outputW := w, outputH := h }) := by
  obtain ⟨h1, h2, h3, h4⟩ := hpos
  simp only [processCrop, buildCropFilter, runCropFfmpeg, if_neg h1, if_neg h2, if_neg h3,
    if_neg h4]
  rw [if_pos (by refine ⟨?_, ?_, ?_, ?_, ?_, ?_⟩ <;> (try dsimp only) <;> omega)]
  rw [if_neg (fun hcon => hcon.elim h3 h4), if_neg (fun hcon => hcon.elim h1 h2)]

/-- Witness for `processCrop_unknown_position`: the unrecognised position
string `diagonal` on a 1920 x 1080 input crops 100 rows off the bottom yet
reports the output size as 1920 x 1080. -/
theorem processCrop_unknown_position_w :
    processCrop 1920 1080 100 "diagonal" =
      Except.ok ({ outW := 1920, outH := 980, x := 0, y := 0 },
        { cropPixels := 100, cropPosition := "diagonal", originalW := 1920, originalH := 1080,
          outputW := 1920, outputH := 1080 }) :=
  processCrop_unknown_position 1920 1080 100 "diagonal" (by decide) (by decide) (by decide)
    ⟨by decide, by decide, by decide, by decide⟩

end BlankLogo
